import Mathlib

/-!
Verification development for the vsock send tool in
src/tools/qemu-vsock-send.cpp.

The program is a straight-line command-line utility: it checks the
argument count, creates an AF_VSOCK stream socket, connects it to a
fixed address (host context id, port 9999), sends the arguments joined
into one newline-terminated line, performs a single recv into a
4096-byte zero-initialised buffer, and either prints the received bytes
behind a "Value: " label and exits 0 (when the size_t byte count is
strictly below 4096) or prints nothing and exits 1.

The embedding below models the run as a pure function of the argument
list (argv without the program name) and of the behavior of the socket
calls in that run (whether connect succeeds, what recv returns and what
bytes it stores).  Machine arithmetic is modelled with Nat and Int and
an explicit modulus for the size_t conversion.
-/

namespace QemuVsockSend

/-- AF_VSOCK address family constant from linux/vm_sockets.h. -/
def AF_VSOCK : Nat := 40

/-- VMADDR_CID_HOST constant from linux/vm_sockets.h: the context id of the host. -/
def VMADDR_CID_HOST : Nat := 2

/-- The sockaddr_vm structure main fills in: address family, port and context id. -/
structure SockaddrVm where
  svm_family : Nat
  svm_port : Nat
  svm_cid : Nat
deriving DecidableEq, Repr

/-- The fixed address main builds before the connect call:
AF_VSOCK family, port 9999, context id VMADDR_CID_HOST. -/
def vsockAddr : SockaddrVm :=
  { svm_family := AF_VSOCK, svm_port := 9999, svm_cid := VMADDR_CID_HOST }

/-- snprintf-style formatting with a single string argument, over the format
string's characters: each occurrence of the directive for a string argument
is replaced by that argument.  This is the meaning of the variadic
m3_string_format template at the one instantiation the source uses
(format "%s " with one char-pointer argument). -/
def sprintfS : List Char → String → String
  | [], _ => ""
  | '%' :: 's' :: rest, arg => arg ++ sprintfS rest arg
  | c :: rest, arg => String.singleton c ++ sprintfS rest arg

/-- m3_string_format from the source, at the single-string-argument
instantiation used by main. -/
def m3_string_format (fmt : String) (arg : String) : String :=
  sprintfS fmt.data arg

/-- The request string main builds: the loop
for i in 1..argc-1 do out += m3_string_format("%s ", argv[i]) followed by
out += "\n".  args is argv without the program name. -/
def buildRequest (args : List String) : String :=
  (args.foldl (fun out a => out ++ m3_string_format "%s " a) "") ++ "\n"

/-- The behavior of the socket calls during one run, supplied by the
environment: whether the connect call succeeds, the return values of send
and recv, and the bytes recv stores into the buffer. -/
structure NetBehavior where
  connectOk : Bool
  sendRet : Int
  recvRet : Int
  recvData : List Nat
deriving DecidableEq, Repr

/-- Constraints every real run satisfies: recv returns -1 on error, or the
number of bytes it stored, at most the requested length 4096; and when the
connect call failed the socket is unconnected, so the recv call fails. -/
def NetBehavior.WellFormed (net : NetBehavior) : Prop :=
  (net.recvRet = -1 ∨
    (0 ≤ net.recvRet ∧ net.recvRet ≤ 4096 ∧
      net.recvData.length = net.recvRet.toNat)) ∧
  (net.connectOk = false → net.recvRet = -1)

/-- One observable socket operation of the run, in program order. -/
inductive NetEvent where
  | socketCreate : NetEvent
  | connectTo : SockaddrVm → NetEvent
  | sendMsg : String → NetEvent
  | recvMsg : NetEvent
deriving DecidableEq, Repr

/-- Modulus of the 64-bit size_t of the target. -/
def SIZE_T_MOD : Nat := 2 ^ 64

/-- The size_t value obtained by converting recv's signed return value:
size_t msg_len = recv(...).  A negative return wraps modulo 2^64. -/
def toSizeT (r : Int) : Nat := (r % (SIZE_T_MOD : Int)).toNat

/-- The contents of char buf[4096] = { 0 } after the recv call: the bytes
recv stored, over the zero initialiser, 4096 bytes in total. -/
def recvBuffer (net : NetBehavior) : List Nat :=
  (net.recvData ++ List.replicate 4096 0).take 4096

/-- The bytes printf writes for a string conversion with an explicit
precision: characters of the array up to the precision, stopping early at
the first NUL byte.  Models "%.*s" with the given precision.  (On the only
path where the source reaches printf, msg_len < 4096, so the (int) cast of
the precision is the identity.) -/
def printfPrecS (prec : Nat) (buf : List Nat) : List Nat :=
  (buf.take prec).takeWhile (fun c => c ≠ 0)

/-- The bytes of an ASCII string literal. -/
def strBytes (s : String) : List Nat := s.data.map Char.toNat

/-- The payload the success-path printf call reads out of the buffer:
"%.*s" with precision (int)msg_len over buf. -/
def respPayload (net : NetBehavior) : List Nat :=
  printfPrecS (toSizeT net.recvRet) (recvBuffer net)

/-- The observable outcome of one run of main: the process exit status, the
bytes written to standard output, whether the usage message was written to
the error stream, and the socket operations performed, in order. -/
structure RunResult where
  exitCode : Nat
  stdoutBytes : List Nat
  stderrUsage : Bool
  events : List NetEvent
deriving DecidableEq, Repr

/-- Shallow embedding of main from src/tools/qemu-vsock-send.cpp.
args is argv without the program name (so argc < 2 is args = []); net is
the behavior of the socket calls in this run.  The source never inspects
the return values of socket, connect or send, so the run always performs
socket, connect, send, recv in that order once past the argument check;
the branch after recv compares the size_t msg_len with
sizeof(buffer) * sizeof(char) = 4096 and either prints
"Value: %.*s" and returns EXIT_SUCCESS = 0 or returns EXIT_FAILURE = 1. -/
def main (args : List String) (net : NetBehavior) : RunResult :=
  if args.length < 1 then
    { exitCode := 1, stdoutBytes := [], stderrUsage := true, events := [] }
  else
    let out := buildRequest args
    let msg_len := toSizeT net.recvRet
    let events := [NetEvent.socketCreate, NetEvent.connectTo vsockAddr,
                   NetEvent.sendMsg out, NetEvent.recvMsg]
    if msg_len < 4096 then
      { exitCode := 0,
        stdoutBytes := strBytes "Value: " ++ printfPrecS msg_len (recvBuffer net),
        stderrUsage := false, events := events }
    else
      { exitCode := 1, stdoutBytes := [], stderrUsage := false, events := events }


/-- The spec formula for joining tokens: one single space between
consecutive tokens, following the words join(T, " ") of the spec, for
comparison with the request the source builds. -/
def joinSpace : List String → String
  | [] => ""
  | [t] => t
  | t :: rest => t ++ " " ++ joinSpace rest

/-- The request as the spec words it: the tokens joined by single spaces
with one trailing newline appended. -/
def specRequest (tokens : List String) : String :=
  joinSpace tokens ++ "\n"

lemma m3_format_token (a : String) : m3_string_format "%s " a = a ++ " " := by
  have hd : "%s ".data = ['%', 's', ' '] := rfl
  unfold m3_string_format
  rw [hd]
  have h2 : ∀ b : String, sprintfS [' '] b = " " := by
    intro b
    show String.singleton ' ' ++ sprintfS [] b = " "
    rfl
  show a ++ sprintfS [' '] a = a ++ " "
  rw [h2]

lemma foldl_request_shift (T : List String) (acc : String) :
    T.foldl (fun out a => out ++ m3_string_format "%s " a) acc
      = acc ++ T.foldl (fun out a => out ++ m3_string_format "%s " a) "" := by
  induction T generalizing acc with
  | nil => simp [String.append_empty]
  | cons t rest ih =>
    simp only [List.foldl_cons]
    rw [ih (acc ++ m3_string_format "%s " t), ih ("" ++ m3_string_format "%s " t)]
    rw [String.empty_append, String.append_assoc]

lemma main_eq_success (args : List String) (net : NetBehavior)
    (hargs : args ≠ []) (hlt : toSizeT net.recvRet < 4096) :
    main args net =
      { exitCode := 0,
        stdoutBytes := strBytes "Value: " ++ printfPrecS (toSizeT net.recvRet) (recvBuffer net),
        stderrUsage := false,
        events := [NetEvent.socketCreate, NetEvent.connectTo vsockAddr,
                   NetEvent.sendMsg (buildRequest args), NetEvent.recvMsg] } := by
  have h1 : ¬ args.length < 1 := by
    have := List.length_pos.mpr hargs
    omega
  simp only [main, if_neg h1, if_pos hlt]

lemma main_eq_failure (args : List String) (net : NetBehavior)
    (hargs : args ≠ []) (hge : ¬ toSizeT net.recvRet < 4096) :
    main args net =
      { exitCode := 1, stdoutBytes := [], stderrUsage := false,
        events := [NetEvent.socketCreate, NetEvent.connectTo vsockAddr,
                   NetEvent.sendMsg (buildRequest args), NetEvent.recvMsg] } := by
  have h1 : ¬ args.length < 1 := by
    have := List.length_pos.mpr hargs
    omega
  simp only [main, if_neg h1, if_neg hge]

lemma toSizeT_of_nonneg (r : Int) (h0 : 0 ≤ r) (hlt : r < 4096) :
    toSizeT r = r.toNat := by
  unfold toSizeT SIZE_T_MOD
  have h64 : ((2 ^ 64 : Nat) : Int) = 18446744073709551616 := by norm_num
  rw [h64]
  omega

lemma toSizeT_of_neg (r : Int) (hneg : r < 0) (hbound : -(2 ^ 63) ≤ r) :
    2 ^ 63 ≤ toSizeT r := by
  unfold toSizeT SIZE_T_MOD
  have h64 : ((2 ^ 64 : Nat) : Int) = 18446744073709551616 := by norm_num
  rw [h64]
  have h63n : (2 ^ 63 : Nat) = 9223372036854775808 := by norm_num
  have h63i : ((2 : Int) ^ 63) = 9223372036854775808 := by norm_num
  rw [h63n]
  rw [h63i] at hbound
  omega

lemma request_body_eq (T : List String) (h : T ≠ []) :
    T.foldl (fun out a => out ++ m3_string_format "%s " a) "" = joinSpace T ++ " " := by
  induction T with
  | nil => contradiction
  | cons t rest ih =>
    cases rest with
    | nil =>
      simp only [List.foldl_cons, List.foldl_nil, m3_format_token, String.empty_append]
      simp [joinSpace]
    | cons u rest2 =>
      have hne : (u :: rest2) ≠ [] := by simp
      rw [List.foldl_cons]
      rw [foldl_request_shift (u :: rest2) ("" ++ m3_string_format "%s " t)]
      rw [ih hne, m3_format_token, String.empty_append]
      simp only [joinSpace]
      simp [String.append_assoc]

lemma takeWhile_length_le (p : Nat → Bool) (l : List Nat) :
    (l.takeWhile p).length ≤ l.length := by
  induction l with
  | nil => simp
  | cons x xs ih =>
    rw [List.takeWhile_cons]
    by_cases hp : p x
    · simp [hp]; omega
    · simp [hp]

lemma takeWhile_eq_take_length (p : Nat → Bool) (l : List Nat) :
    l.takeWhile p = l.take (l.takeWhile p).length := by
  induction l with
  | nil => rfl
  | cons x xs ih =>
    rw [List.takeWhile_cons]
    by_cases hp : p x
    · simp [hp]
      exact ih
    · simp [hp]

lemma main_events (args : List String) (net : NetBehavior) (hargs : args ≠ []) :
    (main args net).events =
      [NetEvent.socketCreate, NetEvent.connectTo vsockAddr,
       NetEvent.sendMsg (buildRequest args), NetEvent.recvMsg] := by
  by_cases hlt : toSizeT net.recvRet < 4096
  · rw [main_eq_success args net hargs hlt]
  · rw [main_eq_failure args net hargs hlt]

/-- Claim C2 counterexample: for the single token STATUS the transmitted
request is "STATUS \n", not join(T, " ") ++ "\n" = "STATUS\n": the source
appends a space after every token, including the last. -/
theorem C2_request_not_spec_join : buildRequest ["STATUS"] ≠ specRequest ["STATUS"] := by
  decide

/-- Claim C2 (amended): for every non-empty token sequence T the request
the source builds equals the tokens joined by single spaces, then one
trailing space, then one newline. -/
theorem C2_request_join_trailing_space (T : List String) (h : T ≠ []) :
    buildRequest T = joinSpace T ++ " " ++ "\n" := by
  unfold buildRequest
  rw [request_body_eq T h]

/-- Claim C2 witness: the amended statement at the concrete token list
GET STATUS. -/
theorem C2_request_join_trailing_space_witness :
    buildRequest ["GET", "STATUS"] = joinSpace ["GET", "STATUS"] ++ " " ++ "\n" :=
  C2_request_join_trailing_space ["GET", "STATUS"] (by decide)

/-- Claim C7 counterexample: the request for the single token STATUS is
the string "STATUS \n", but that string has eight characters, not five. -/
theorem C7_request_not_five_chars :
    ¬ (buildRequest ["STATUS"] = "STATUS \n" ∧ (buildRequest ["STATUS"]).length = 5) := by
  decide

/-- Claim C7 (amended): for the single-token input STATUS the constructed
request is exactly the eight-character string "STATUS \n": a space is
appended after the token before the final newline. -/
theorem C7_request_single_token :
    buildRequest ["STATUS"] = "STATUS \n" ∧ (buildRequest ["STATUS"]).length = 8 := by
  decide

/-- Claim C5: with zero arguments beyond the program name the process
writes the usage message to the error stream, exits with status 1, prints
nothing to standard output and performs no socket operation at all. -/
theorem C5_usage_error (net : NetBehavior) :
    (main [] net).exitCode = 1 ∧ (main [] net).stderrUsage = true ∧
    (main [] net).events = [] ∧ (main [] net).stdoutBytes = [] :=
  ⟨rfl, rfl, rfl, rfl⟩

/-- Claim C4: when the receive call exactly fills the 4096-byte buffer the
run is classified as failure: nothing is printed to standard output and
the process exits with the failure status 1. -/
theorem C4_full_buffer_is_failure (args : List String) (net : NetBehavior)
    (hargs : args ≠ []) (h : net.recvRet = 4096) :
    (main args net).exitCode = 1 ∧ (main args net).stdoutBytes = [] := by
  have hm : toSizeT net.recvRet = 4096 := by rw [h]; decide
  rw [main_eq_failure args net hargs (by omega)]
  exact ⟨rfl, rfl⟩

/-- Claim C4 witness: the failure classification at a concrete run whose
recv call returns exactly 4096. -/
theorem C4_full_buffer_is_failure_witness :
    (main ["STATUS"] ⟨true, 8, 4096, List.replicate 4096 65⟩).exitCode = 1 ∧
    (main ["STATUS"] ⟨true, 8, 4096, List.replicate 4096 65⟩).stdoutBytes = [] :=
  C4_full_buffer_is_failure ["STATUS"] ⟨true, 8, 4096, List.replicate 4096 65⟩
    (by decide) rfl

/-- Claim C9: every run that passes the argument-count check performs
exactly one socket creation, one connect, one send and one receive, in
that order, on the success path and on the failure path alike. -/
theorem C9_event_trace (args : List String) (net : NetBehavior) (hargs : args ≠ []) :
    (main args net).events =
      [NetEvent.socketCreate, NetEvent.connectTo vsockAddr,
       NetEvent.sendMsg (buildRequest args), NetEvent.recvMsg] :=
  main_events args net hargs

/-- Claim C9 witness: the event trace of a concrete run. -/
theorem C9_event_trace_witness :
    (main ["STATUS"] ⟨true, 8, 2, [79, 75]⟩).events =
      [NetEvent.socketCreate, NetEvent.connectTo vsockAddr,
       NetEvent.sendMsg (buildRequest ["STATUS"]), NetEvent.recvMsg] :=
  C9_event_trace ["STATUS"] ⟨true, 8, 2, [79, 75]⟩ (by decide)

lemma printfPrecS_length_le (prec : Nat) (buf : List Nat) :
    (printfPrecS prec buf).length ≤ min prec buf.length := by
  unfold printfPrecS
  exact le_trans (takeWhile_length_le _ _) (le_of_eq (List.length_take _ _))

lemma printfPrecS_is_take (prec : Nat) (buf : List Nat) :
    printfPrecS prec buf = buf.take (printfPrecS prec buf).length := by
  unfold printfPrecS
  have hlen : ((buf.take prec).takeWhile (fun c => c ≠ 0)).length ≤ prec :=
    le_trans (takeWhile_length_le _ _) (by rw [List.length_take]; omega)
  conv_lhs => rw [takeWhile_eq_take_length]
  rw [List.take_take, min_eq_left hlen]

/-- Claim C1 counterexample: a three-byte reply with an embedded NUL byte
is classified as success, but printf stops the string conversion at the
NUL, so the printed bytes are not the received bytes. -/
theorem C1_nul_byte_truncates_output :
    (main ["STATUS"] ⟨true, 8, 3, [65, 0, 66]⟩).exitCode = 0 ∧
    (main ["STATUS"] ⟨true, 8, 3, [65, 0, 66]⟩).stdoutBytes ≠
      strBytes "Value: " ++ [65, 0, 66] := by
  decide

/-- Claim C1 (amended): when the peer accepts the connection and the recv
call returns strictly fewer than 4096 bytes, the run is classified as
success with exit status 0, and standard output carries the label followed
by the received bytes truncated at the first NUL byte; the round trip is
byte-for-byte exactly when the reply contains no NUL byte. -/
theorem C1_short_reply_success (args : List String) (net : NetBehavior)
    (hargs : args ≠ []) (_hconn : net.connectOk = true)
    (h0 : 0 ≤ net.recvRet) (hlen : net.recvData.length = net.recvRet.toNat)
    (hlt : net.recvRet < 4096) :
    (main args net).exitCode = 0 ∧
    (main args net).stdoutBytes =
      strBytes "Value: " ++ net.recvData.takeWhile (fun c => c ≠ 0) := by
  have hm : toSizeT net.recvRet = net.recvRet.toNat := toSizeT_of_nonneg net.recvRet h0 hlt
  have hlt' : toSizeT net.recvRet < 4096 := by rw [hm]; omega
  rw [main_eq_success args net hargs hlt']
  refine ⟨rfl, ?_⟩
  show strBytes "Value: " ++ printfPrecS (toSizeT net.recvRet) (recvBuffer net) = _
  congr 1
  unfold printfPrecS recvBuffer
  rw [hm, List.take_take]
  have hmin : min net.recvRet.toNat 4096 = net.recvRet.toNat := by omega
  rw [hmin, ← hlen, List.take_left]

/-- Claim C1 witness: a concrete accepted run with a two-byte NUL-free
reply, printed behind the label and exiting 0. -/
theorem C1_short_reply_success_witness :
    (main ["STATUS"] ⟨true, 8, 2, [79, 75]⟩).exitCode = 0 ∧
    (main ["STATUS"] ⟨true, 8, 2, [79, 75]⟩).stdoutBytes =
      strBytes "Value: " ++ [79, 75].takeWhile (fun c => c ≠ 0) :=
  C1_short_reply_success ["STATUS"] ⟨true, 8, 2, [79, 75]⟩
    (by decide) rfl (by decide) (by decide) (by decide)

/-- Claim C3 counterexample: in a run whose connect call fails, the source
still performs its send and recv calls; the claim that no send or receive
is attempted is false. -/
theorem C3_connect_failure_still_attempts_io :
    NetEvent.sendMsg (buildRequest ["STATUS"]) ∈
      (main ["STATUS"] ⟨false, -1, -1, []⟩).events ∧
    NetEvent.recvMsg ∈ (main ["STATUS"] ⟨false, -1, -1, []⟩).events := by
  decide

/-- Claim C3 (amended): when no process is listening, the connect call
fails but its return value is never inspected: the run still performs the
send and the receive; the receive then fails with a negative return value,
so the run takes the failure branch, printing nothing and exiting with the
non-zero status 1; no distinct ConnectFailed report exists. -/
theorem C3_connect_failure_exits_nonzero (args : List String) (net : NetBehavior)
    (hargs : args ≠ []) (hconn : net.connectOk = false)
    (hwf : net.WellFormed) :
    (main args net).exitCode = 1 ∧ (main args net).stdoutBytes = [] ∧
    NetEvent.sendMsg (buildRequest args) ∈ (main args net).events ∧
    NetEvent.recvMsg ∈ (main args net).events := by
  have hr : net.recvRet = -1 := hwf.2 hconn
  have hm : toSizeT net.recvRet = 18446744073709551615 := by rw [hr]; decide
  have hge : ¬ toSizeT net.recvRet < 4096 := by omega
  rw [main_eq_failure args net hargs hge]
  refine ⟨rfl, rfl, ?_, ?_⟩ <;> simp

/-- Claim C3 witness: a concrete run with a failed connect. -/
theorem C3_connect_failure_exits_nonzero_witness :
    (main ["GET"] ⟨false, -1, -1, []⟩).exitCode = 1 ∧
    (main ["GET"] ⟨false, -1, -1, []⟩).stdoutBytes = [] ∧
    NetEvent.sendMsg (buildRequest ["GET"]) ∈ (main ["GET"] ⟨false, -1, -1, []⟩).events ∧
    NetEvent.recvMsg ∈ (main ["GET"] ⟨false, -1, -1, []⟩).events :=
  C3_connect_failure_exits_nonzero ["GET"] ⟨false, -1, -1, []⟩
    (by decide) rfl ⟨Or.inl rfl, fun _ => rfl⟩

/-- Claim C6: a negative recv return value wraps through the size_t
conversion to a value far above the 4096-byte buffer size, so the run
takes the failure branch: exit status 1 and nothing printed. -/
theorem C6_negative_recv_takes_failure_branch (args : List String) (net : NetBehavior)
    (hargs : args ≠ []) (hneg : net.recvRet < 0) (hbound : -(2 ^ 63) ≤ net.recvRet) :
    4096 ≤ toSizeT net.recvRet ∧
    (main args net).exitCode = 1 ∧ (main args net).stdoutBytes = [] := by
  have h2 := toSizeT_of_neg net.recvRet hneg hbound
  have h63 : (2 ^ 63 : Nat) = 9223372036854775808 := by norm_num
  rw [h63] at h2
  have h4096 : 4096 ≤ toSizeT net.recvRet := by omega
  refine ⟨h4096, ?_, ?_⟩ <;> rw [main_eq_failure args net hargs (by omega)]

/-- Claim C6 witness: the wrap at the concrete error return -1. -/
theorem C6_negative_recv_takes_failure_branch_witness :
    4096 ≤ toSizeT (NetBehavior.recvRet ⟨true, 8, -1, []⟩) ∧
    (main ["STATUS"] ⟨true, 8, -1, []⟩).exitCode = 1 ∧
    (main ["STATUS"] ⟨true, 8, -1, []⟩).stdoutBytes = [] :=
  C6_negative_recv_takes_failure_branch ["STATUS"] ⟨true, 8, -1, []⟩
    (by decide) (by decide) (by decide)

/-- Claim C8: every connect event of any run targets the one fixed
address: AF_VSOCK family, port 9999, host context id; no argument and no
part of the environment changes it. -/
theorem C8_fixed_endpoint (args : List String) (net : NetBehavior) (a : SockaddrVm)
    (h : NetEvent.connectTo a ∈ (main args net).events) :
    a = vsockAddr ∧ a.svm_port = 9999 ∧ a.svm_cid = VMADDR_CID_HOST := by
  have ha : a = vsockAddr := by
    cases args with
    | nil => simp [main] at h
    | cons t rest =>
      rw [main_events (t :: rest) net (by simp)] at h
      simp at h
      exact h
  subst ha
  exact ⟨rfl, rfl, rfl⟩

/-- Claim C8 witness: the connect event of a concrete run targets the
fixed address. -/
theorem C8_fixed_endpoint_witness :
    vsockAddr = vsockAddr ∧ vsockAddr.svm_port = 9999 ∧
    vsockAddr.svm_cid = VMADDR_CID_HOST :=
  C8_fixed_endpoint ["STATUS"] ⟨true, 8, 2, [79, 75]⟩ vsockAddr (by decide)

/-- Claim C10: the buffer recv fills is 4096 bytes long, the payload the
success-path printf reads is a prefix of that buffer no longer than the
precision and the buffer, the success path only arises with msg_len
strictly below 4096, and the failure path prints nothing. -/
theorem C10_response_access_in_bounds (args : List String) (net : NetBehavior)
    (hargs : args ≠ []) :
    (recvBuffer net).length = 4096 ∧
    (respPayload net).length ≤ min (toSizeT net.recvRet) 4096 ∧
    respPayload net = (recvBuffer net).take (respPayload net).length ∧
    (((main args net).exitCode = 0 ∧ toSizeT net.recvRet < 4096 ∧
        (main args net).stdoutBytes = strBytes "Value: " ++ respPayload net) ∨
      ((main args net).exitCode = 1 ∧ 4096 ≤ toSizeT net.recvRet ∧
        (main args net).stdoutBytes = [])) := by
  have hbuf : (recvBuffer net).length = 4096 := by
    unfold recvBuffer
    rw [List.length_take, List.length_append, List.length_replicate]
    omega
  refine ⟨hbuf, ?_, printfPrecS_is_take _ _, ?_⟩
  · have h := printfPrecS_length_le (toSizeT net.recvRet) (recvBuffer net)
    rw [hbuf] at h
    exact h
  · by_cases hlt : toSizeT net.recvRet < 4096
    · left
      rw [main_eq_success args net hargs hlt]
      exact ⟨rfl, hlt, rfl⟩
    · right
      rw [main_eq_failure args net hargs hlt]
      exact ⟨rfl, by omega, rfl⟩

/-- Claim C10 witness: the bounds facts at a concrete successful run. -/
theorem C10_response_access_in_bounds_witness :
    (recvBuffer ⟨true, 8, 2, [79, 75]⟩).length = 4096 ∧
    (respPayload ⟨true, 8, 2, [79, 75]⟩).length ≤
      min (toSizeT (NetBehavior.recvRet ⟨true, 8, 2, [79, 75]⟩)) 4096 ∧
    respPayload ⟨true, 8, 2, [79, 75]⟩ =
      (recvBuffer ⟨true, 8, 2, [79, 75]⟩).take (respPayload ⟨true, 8, 2, [79, 75]⟩).length ∧
    (((main ["STATUS"] ⟨true, 8, 2, [79, 75]⟩).exitCode = 0 ∧
        toSizeT (NetBehavior.recvRet ⟨true, 8, 2, [79, 75]⟩) < 4096 ∧
        (main ["STATUS"] ⟨true, 8, 2, [79, 75]⟩).stdoutBytes =
          strBytes "Value: " ++ respPayload ⟨true, 8, 2, [79, 75]⟩) ∨
      ((main ["STATUS"] ⟨true, 8, 2, [79, 75]⟩).exitCode = 1 ∧
        4096 ≤ toSizeT (NetBehavior.recvRet ⟨true, 8, 2, [79, 75]⟩) ∧
        (main ["STATUS"] ⟨true, 8, 2, [79, 75]⟩).stdoutBytes = [])) :=
  C10_response_access_in_bounds ["STATUS"] ⟨true, 8, 2, [79, 75]⟩ (by decide)

end QemuVsockSend
